import Mathlib

/-!
Formal model of the NativeSpark AI browser modules: the progress tracker,
the AI practice-mode response parser, the translation widget, the chat
assistant, the isolated dictionary, the journey cache and the page router.
JavaScript numbers are modelled as rationals, JS objects as Lean structures,
plain-object property tables as association lists, and the network as an
explicit oracle argument; each operation additionally returns the list of
network requests it performed.
-/

namespace NativeSpark

/-! ## JavaScript-style helpers -/

/-- JS truthiness of an optional string: `undefined` / `null` and `""` are falsy. -/
def optTruthy : Option String → Bool
  | none => false
  | some s => s ≠ ""

/-- JS `a || b` where `a` is an optional string. -/
def jsOrStr (o : Option String) (d : String) : String :=
  match o with
  | some s => if s = "" then d else s
  | none => d

/-- JS `a || b` where `a` is an optional number (0 is falsy). -/
def jsOrQ (o : Option ℚ) (d : ℚ) : ℚ :=
  match o with
  | some q => if q = 0 then d else q
  | none => d

/-- JS whitespace test for `trim()` / `\s`. -/
def charWS (c : Char) : Bool :=
  c == ' ' || c == '\t' || c == '\n' || c == '\r' || c == '\x0b' || c == '\x0c'

def dropWhileWS : List Char → List Char
  | [] => []
  | c :: rest => if charWS c then dropWhileWS rest else c :: rest

/-- JS `s.trim()`. -/
def strTrim (s : String) : String :=
  String.mk ((dropWhileWS ((dropWhileWS s.data).reverse)).reverse)

/-- ASCII lower-casing of one character, for case-insensitive regex tests. -/
def lowerChar (c : Char) : Char :=
  if 'A' ≤ c && c ≤ 'Z' then Char.ofNat (c.toNat + 32) else c

/-- `s.substring(n)` / dropping a matched prefix of `n` characters. -/
def strDrop (s : String) (n : ℕ) : String := String.mk (s.data.drop n)

def ciPrefixChars : List Char → List Char → Bool
  | [], _ => true
  | _ :: _, [] => false
  | c :: cs, d :: ds => (lowerChar d == lowerChar c) && ciPrefixChars cs ds

/-- The case-insensitive anchored test `/^label/i.test(s)`. -/
def ciStartsWith (label s : String) : Bool := ciPrefixChars label.data s.data

def splitChars (sep : Char) : List Char → List (List Char)
  | [] => [[]]
  | d :: rest =>
      match splitChars sep rest with
      | [] => [[]]
      | cur :: more => if d == sep then [] :: cur :: more else (d :: cur) :: more

/-- JS `s.split(sep)` for a one-character separator. -/
def strSplit (s : String) (sep : Char) : List String :=
  (splitChars sep s.data).map String.mk

/-- JS `s.length`. -/
def strLen (s : String) : ℕ := s.data.length

/-- JS `s.startsWith(p)`. -/
def litStartsWith (p s : String) : Bool := s.data.take p.data.length == p.data

/-- Association-list lookup, modelling JS plain-object / `Map` key access. -/
def alookup {α : Type} : List (String × α) → String → Option α
  | [], _ => none
  | (k, v) :: rest, key => if k = key then some v else alookup rest key

/-- `Map.set`: replace the value at an existing key in place, else append. -/
def setKey {α : Type} : List (String × α) → String → α → List (String × α)
  | [], key, v => [(key, v)]
  | (k, w) :: rest, key, v =>
      if k = key then (k, v) :: rest else (k, w) :: setKey rest key v

/-- `Map.delete`: remove the entry with the given key. -/
def delKey {α : Type} : List (String × α) → String → List (String × α)
  | [], _ => []
  | (k, w) :: rest, key => if k = key then rest else (k, w) :: delKey rest key

theorem alookup_setKey {α : Type} (l : List (String × α)) (key : String) (v : α) :
    alookup (setKey l key v) key = some v := by
  induction l with
  | nil => simp [setKey, alookup]
  | cons hd tl ih =>
      obtain ⟨k, w⟩ := hd
      by_cases hk : k = key
      · simp [setKey, hk, alookup]
      · simp [setKey, hk, alookup, ih]

/-! ## Progress tracker (`ProgressTracker` class)

State: the four learning modules with their `completed` flag and numeric
`progress`, as initialised in the constructor. -/

structure ModuleState where
  name : String
  completed : Bool
  progress : Option ℚ
  order : ℕ
deriving DecidableEq, Repr

structure Modules where
  alphabets : ModuleState
  vocabulary : ModuleState
  grammar : ModuleState
  assessment : ModuleState
deriving DecidableEq, Repr

/-- The constructor's `this.modules` initialiser. -/
def initialModules : Modules :=
  { alphabets := { name := "AI Alphabets", completed := false, progress := some 0, order := 1 }
    vocabulary := { name := "Smart Vocabulary", completed := false, progress := some 0, order := 2 }
    grammar := { name := "Intelligent Grammar", completed := false, progress := some 0, order := 3 }
    assessment := { name := "Adaptive Assessment", completed := false, progress := some 0, order := 4 } }

/-- `Object.keys(this.modules)` in insertion order. -/
def moduleKeys : List String := ["alphabets", "vocabulary", "grammar", "assessment"]

/-- `this.modules[key]` property access. -/
def getModule (m : Modules) (key : String) : Option ModuleState :=
  if key = "alphabets" then some m.alphabets
  else if key = "vocabulary" then some m.vocabulary
  else if key = "grammar" then some m.grammar
  else if key = "assessment" then some m.assessment
  else none

/-- `this.modules[key] = v` property write. -/
def setModule (m : Modules) (key : String) (v : ModuleState) : Modules :=
  if key = "alphabets" then { m with alphabets := v }
  else if key = "vocabulary" then { m with vocabulary := v }
  else if key = "grammar" then { m with grammar := v }
  else if key = "assessment" then { m with assessment := v }
  else m

/-- The `moduleWeights` table of `updateProgressBar`. -/
def moduleWeights : List (String × ℚ) :=
  [("alphabets", 1/4), ("vocabulary", 1/4), ("grammar", 1/4), ("assessment", 1/4)]

/-- The `totalProgress` accumulation loop of `updateProgressBar`:
`totalProgress += (this.modules[key].progress || 0) * (moduleWeights[key] || 0.25)`. -/
def overallTotal (m : Modules) : ℚ :=
  moduleKeys.foldl (fun total key =>
    match getModule m key with
    | some ms =>
        let weight := jsOrQ (alookup moduleWeights key) (1/4)
        let progress := jsOrQ ms.progress 0
        total + progress * weight
    | none => total) 0

/-- `updateProgressBar`: the displayed `percentage = Math.round(totalProgress)`. -/
def updateProgressBarPercentage (m : Modules) : ℤ :=
  round (overallTotal m)

/-- The duplicated overall-progress computation inside `generateMenuHTML`. -/
def generateMenuPercentage (m : Modules) : ℤ :=
  let totalProgress : ℚ :=
    moduleKeys.foldl (fun total key =>
      match getModule m key with
      | some ms =>
          let weight := jsOrQ (alookup (
            [("alphabets", 1/4), ("vocabulary", 1/4), ("grammar", 1/4), ("assessment", 1/4)]) key) (1/4)
          let progress := jsOrQ ms.progress 0
          total + progress * weight
      | none => total) 0
  round totalProgress

/-- `updateModuleProgress(moduleName, percentage)`: stores
`Math.min(100, Math.max(0, percentage))` and sets `completed` when
`percentage >= 100` (otherwise the flag is left as it was). -/
def updateModuleProgress (m : Modules) (key : String) (percentage : ℚ) : Modules :=
  match getModule m key with
  | none => m
  | some ms =>
      setModule m key
        { ms with
          progress := some (min 100 (max 0 percentage))
          completed := if 100 ≤ percentage then true else ms.completed }

/-- `markComplete(moduleName)`. -/
def markComplete (m : Modules) (key : String) : Modules :=
  match getModule m key with
  | none => m
  | some ms => setModule m key { ms with completed := true, progress := some 100 }

/-- A module's stored progress value lies in `[0, 100]`. -/
def progressInRange (ms : ModuleState) : Prop :=
  ∀ p, ms.progress = some p → 0 ≤ p ∧ p ≤ 100

/-- The tracker invariant: all four modules have in-range progress. -/
def trackerInv (m : Modules) : Prop :=
  progressInRange m.alphabets ∧ progressInRange m.vocabulary ∧
    progressInRange m.grammar ∧ progressInRange m.assessment

theorem getModule_setModule_self (m : Modules) (key : String) (v : ModuleState)
    (h : getModule m key ≠ none) : getModule (setModule m key v) key = some v := by
  unfold getModule setModule at *
  split_ifs at * <;> simp_all

theorem getModule_setModule (m : Modules) (key k : String) (v : ModuleState) :
    getModule (setModule m key v) k = getModule m k ∨
      (k = key ∧ getModule (setModule m key v) k = some v) := by
  unfold getModule setModule
  split_ifs <;> simp_all

theorem trackerInv_setModule (m : Modules) (key : String) (v : ModuleState)
    (hinv : trackerInv m) (hv : progressInRange v) : trackerInv (setModule m key v) := by
  obtain ⟨h1, h2, h3, h4⟩ := hinv
  unfold setModule
  split_ifs
  · exact ⟨hv, h2, h3, h4⟩
  · exact ⟨h1, hv, h3, h4⟩
  · exact ⟨h1, h2, hv, h4⟩
  · exact ⟨h1, h2, h3, hv⟩
  · exact ⟨h1, h2, h3, h4⟩

theorem clamp_in_range (pct : ℚ) :
    0 ≤ min 100 (max 0 pct) ∧ min (100 : ℚ) (max 0 pct) ≤ 100 :=
  ⟨le_min (by norm_num) (le_max_left 0 pct), min_le_left _ _⟩

/-- C1: `updateProgressBar` displays `Math.round` of the sum of the four module
progress values (missing treated as 0) each weighted by 0.25, which equals the
rounded arithmetic mean of the four values, and the duplicated computation in
`generateMenuHTML` yields the identical value. -/
theorem overall_percentage_is_rounded_mean (m : Modules) :
    updateProgressBarPercentage m =
      round ((jsOrQ m.alphabets.progress 0 + jsOrQ m.vocabulary.progress 0 +
        jsOrQ m.grammar.progress 0 + jsOrQ m.assessment.progress 0) / 4) ∧
    generateMenuPercentage m = updateProgressBarPercentage m := by
  constructor
  · show round (overallTotal m) = _
    have h : overallTotal m =
        0 + jsOrQ m.alphabets.progress 0 * (1/4) + jsOrQ m.vocabulary.progress 0 * (1/4) +
          jsOrQ m.grammar.progress 0 * (1/4) + jsOrQ m.assessment.progress 0 * (1/4) := by
      simp [overallTotal, moduleKeys, getModule, alookup, moduleWeights, jsOrQ]
    rw [h]
    congr 1
    ring
  · rfl

/-- C9: every stored progress value stays in `[0, 100]`: the constructor
establishes the invariant, `updateModuleProgress` and `markComplete` preserve
it, `updateModuleProgress` stores `Math.min(100, Math.max(0, percentage))` and
sets `completed` when the argument is at least 100, neither operation ever
resets a `completed` flag to `false`, and `markComplete` stores progress 100
with `completed = true`. -/
theorem progress_invariant :
    trackerInv initialModules ∧
    (∀ m key pct, trackerInv m → trackerInv (updateModuleProgress m key pct)) ∧
    (∀ m key, trackerInv m → trackerInv (markComplete m key)) ∧
    (∀ m key pct, getModule m key ≠ none →
      ∃ ms', getModule (updateModuleProgress m key pct) key = some ms' ∧
        ms'.progress = some (min 100 (max 0 pct)) ∧ (100 ≤ pct → ms'.completed = true)) ∧
    (∀ m key pct k ms ms', getModule m k = some ms → ms.completed = true →
      getModule (updateModuleProgress m key pct) k = some ms' → ms'.completed = true) ∧
    (∀ m key k ms ms', getModule m k = some ms → ms.completed = true →
      getModule (markComplete m key) k = some ms' → ms'.completed = true) ∧
    (∀ m key, getModule m key ≠ none →
      ∃ ms', getModule (markComplete m key) key = some ms' ∧
        ms'.progress = some 100 ∧ ms'.completed = true) := by
  refine ⟨?_, ?_, ?_, ?_, ?_, ?_, ?_⟩
  · refine ⟨?_, ?_, ?_, ?_⟩ <;> (intro p hp; simp [initialModules] at hp; subst hp; norm_num)
  · intro m key pct hinv
    unfold updateModuleProgress
    cases hg : getModule m key with
    | none => exact hinv
    | some ms =>
        refine trackerInv_setModule m key _ hinv ?_
        intro p hp
        simp at hp
        subst hp
        exact clamp_in_range pct
  · intro m key hinv
    unfold markComplete
    cases hg : getModule m key with
    | none => exact hinv
    | some ms =>
        refine trackerInv_setModule m key _ hinv ?_
        intro p hp
        simp at hp
        subst hp
        norm_num
  · intro m key pct hne
    unfold updateModuleProgress
    cases hg : getModule m key with
    | none => exact absurd hg hne
    | some ms =>
        refine ⟨_, getModule_setModule_self m key _ hne, rfl, ?_⟩
        intro h100
        simp [h100]
  · intro m key pct k ms ms' hk hc hupd
    unfold updateModuleProgress at hupd
    cases hg : getModule m key with
    | none =>
        rw [hg] at hupd
        rw [hk] at hupd
        injection hupd with h
        rw [← h]
        exact hc
    | some ms0 =>
        rw [hg] at hupd
        rcases getModule_setModule m key k
            { ms0 with
              progress := some (min 100 (max 0 pct))
              completed := if 100 ≤ pct then true else ms0.completed } with h | ⟨hkk, h⟩
        · rw [h, hk] at hupd
          injection hupd with h2
          rw [← h2]
          exact hc
        · rw [h] at hupd
          injection hupd with h2
          subst hkk
          rw [hk] at hg
          injection hg with h3
          subst h3
          rw [← h2]
          by_cases h100 : 100 ≤ pct <;> simp [h100, hc]
  · intro m key k ms ms' hk hc hupd
    unfold markComplete at hupd
    cases hg : getModule m key with
    | none =>
        rw [hg] at hupd
        rw [hk] at hupd
        injection hupd with h
        rw [← h]
        exact hc
    | some ms0 =>
        rw [hg] at hupd
        rcases getModule_setModule m key k
            { ms0 with completed := true, progress := some 100 } with h | ⟨hkk, h⟩
        · rw [h, hk] at hupd
          injection hupd with h2
          rw [← h2]
          exact hc
        · rw [h] at hupd
          injection hupd with h2
          rw [← h2]
  · intro m key hne
    unfold markComplete
    cases hg : getModule m key with
    | none => exact absurd hg hne
    | some ms => exact ⟨_, getModule_setModule_self m key _ hne, rfl, rfl⟩

/-- Witness for C9 at a concrete state and argument. -/
theorem progress_invariant_witness :
    getModule initialModules "alphabets" ≠ none ∧
    (∃ ms', getModule (updateModuleProgress initialModules "alphabets" 150) "alphabets" = some ms' ∧
      ms'.progress = some (min 100 (max 0 150)) ∧ (100 ≤ (150 : ℚ) → ms'.completed = true)) :=
  ⟨by decide, progress_invariant.2.2.2.1 initialModules "alphabets" 150 (by decide)⟩

/-! ## AI practice mode (`AIPracticeMode.parseAIResponse`)

The parsed exercise record; unset fields are `none`. -/

structure Exercise where
  type : String
  raw : String
  question : Option String := none
  answer : Option String := none
  word : Option String := none
  definition : Option String := none
  options : Option (List String) := none
  words : Option (List String) := none
  sentence : Option String := none
  correct : Option String := none
  explanation : Option String := none
  translation : Option String := none
  «example» : Option String := none
  scenario : Option String := none
  prompt : Option String := none
  sampleAnswer : Option String := none
  tip : Option String := none
  audioText : Option String := none
  errorType : Option String := none
deriving DecidableEq, Repr

/-- Case-insensitive label match at line start: the test `/^LABEL:/i` together
with `replace(/^LABEL:\s*/i, ).trim()` on a match. -/
def stripLabel (label line : String) : Option String :=
  if ciStartsWith label line then some (strTrim (strDrop line (strLen label))) else none

/-- `s.split(.).map(x => x.trim()).filter(x => x)` for OPTIONS / WORDS lists. -/
def splitListField (s : String) : List String :=
  ((strSplit s '|').map strTrim).filter (fun x => x ≠ "")

/-- One iteration of the strategy-1 label-matching loop over a line. -/
def applyLabels (ex : Exercise) (line : String) : Exercise :=
  let t := strTrim line
  let ex := match stripLabel "QUESTION:" t with
    | some r => { ex with question := some r }
    | none => ex
  let ex := match stripLabel "ANSWER:" t with
    | some r => { ex with answer := some r }
    | none => ex
  let ex := match stripLabel "WORD:" t with
    | some r => { ex with word := some r }
    | none => ex
  let ex := match stripLabel "DEFINITION:" t with
    | some r => { ex with definition := some r }
    | none => ex
  let ex := match stripLabel "OPTIONS:" t with
    | some r => { ex with options := some (splitListField r) }
    | none => ex
  let ex := match stripLabel "WORDS:" t with
    | some r => { ex with words := some (splitListField r) }
    | none => ex
  let ex := match stripLabel "SENTENCE:" t with
    | some r => { ex with sentence := some r }
    | none => ex
  let ex := match stripLabel "CORRECT:" t with
    | some r => { ex with correct := some r }
    | none => ex
  let ex := match stripLabel "EXPLANATION:" t with
    | some r => { ex with explanation := some r }
    | none => ex
  let ex := match stripLabel "TRANSLATION:" t with
    | some r => { ex with translation := some r }
    | none => ex
  let ex := match stripLabel "EXAMPLE:" t with
    | some r => { ex with «example» := some r }
    | none => ex
  let ex := match stripLabel "SCENARIO:" t with
    | some r => { ex with scenario := some r }
    | none => ex
  let ex := match stripLabel "PROMPT:" t with
    | some r => { ex with prompt := some r }
    | none => ex
  let ex := match stripLabel "SAMPLE_ANSWER:" t with
    | some r => { ex with sampleAnswer := some r }
    | none => ex
  let ex := match stripLabel "TIP:" t with
    | some r => { ex with tip := some r }
    | none => ex
  let ex := match stripLabel "AUDIO_TEXT:" t with
    | some r => { ex with audioText := some r }
    | none => ex
  let ex := match stripLabel "ERROR_TYPE:" t with
    | some r => { ex with errorType := some r }
    | none => ex
  ex

/-- Strategy 2: fall back to the first two meaningful lines. -/
def applyFallback (ex : Exercise) (lines : List String) : Exercise :=
  let meaningfulLines := lines.filter (fun l => 10 < strLen l && !(litStartsWith "//" l))
  match meaningfulLines with
  | [] => ex
  | [q] => { ex with question := some q }
  | q :: a :: _ => { ex with question := some q, answer := some a }

/-- JS falsiness of an optional field, as in `!exercise.question`. -/
def optFalsy (o : Option String) : Bool := !optTruthy o

/-- `parseAIResponse(response, type)`, translated from the source: split into
non-blank lines, run the label pass, then run the fallback when all of
`question`, `word`, `sentence`, `prompt` are JS-falsy. -/
def parseAIResponse (response ty : String) : Exercise :=
  let lines := (strSplit response '\n').filter (fun l => strTrim l ≠ "")
  let ex := lines.foldl applyLabels { type := ty, raw := response }
  if optFalsy ex.question && optFalsy ex.word && optFalsy ex.sentence && optFalsy ex.prompt then
    applyFallback ex lines
  else ex

/-- The parser as claim C2 words it: the fallback runs exactly when none of
`question`, `word`, `sentence`, `prompt` was set during the label pass. -/
def parseAIResponseClaimed (response ty : String) : Exercise :=
  let lines := (strSplit response '\n').filter (fun l => strTrim l ≠ "")
  let ex := lines.foldl applyLabels { type := ty, raw := response }
  if ex.question.isNone && ex.word.isNone && ex.sentence.isNone && ex.prompt.isNone then
    applyFallback ex lines
  else ex

/-- A field that was never set, or was set to the empty string. -/
def fieldBlank : Option String → Bool
  | none => true
  | some s => s = ""

/-- The parser as amended: the fallback runs exactly when none of `question`,
`word`, `sentence`, `prompt` holds a non-empty string (a field set to the
empty string counts as unset). -/
def parseAIResponseAmended (response ty : String) : Exercise :=
  let lines := (strSplit response '\n').filter (fun l => strTrim l ≠ "")
  let ex := lines.foldl applyLabels { type := ty, raw := response }
  if fieldBlank ex.question && fieldBlank ex.word && fieldBlank ex.sentence && fieldBlank ex.prompt then
    applyFallback ex lines
  else ex

theorem optFalsy_eq_fieldBlank (o : Option String) : optFalsy o = fieldBlank o := by
  cases o <;> simp [optFalsy, optTruthy, fieldBlank]

/-- C2 counterexample: on `"QUESTION:\nABCDEFGHIJKL"` the label pass sets
`question` to the empty string, yet the code still runs the fallback (the empty
string is falsy) and overwrites `question` with the second line, while the
claim as stated says the fallback must not run because `question` was set. -/
theorem parse_fallback_guard_counterexample :
    parseAIResponse "QUESTION:\nABCDEFGHIJKL" "translation" ≠
        parseAIResponseClaimed "QUESTION:\nABCDEFGHIJKL" "translation" ∧
      (parseAIResponse "QUESTION:\nABCDEFGHIJKL" "translation").question = some "ABCDEFGHIJKL" ∧
      (parseAIResponseClaimed "QUESTION:\nABCDEFGHIJKL" "translation").question = some "" := by
  refine ⟨?_, rfl, rfl⟩
  decide

/-- C2 (amended): `parseAIResponse` behaves exactly as the claim describes,
except that the fallback fires when none of `question`, `word`, `sentence`,
`prompt` holds a non-empty string, rather than when none was set at all. -/
theorem parse_matches_amended_claim (response ty : String) :
    parseAIResponse response ty = parseAIResponseAmended response ty := by
  simp only [parseAIResponse, parseAIResponseAmended, optFalsy_eq_fieldBlank]

/-! ## Translation widget (`TranslationWidget.translateWithFallback`)

State: the `translationCache` map and `currentAPIIndex`; the three
translation APIs (`MyMemory`, `GoogleTranslate`, `LibreTranslate`) are an
oracle `ℕ → String → Option String`, where `none` is `translateWithAPI`
returning `null` after a throw or a `null` API result. -/

structure WidgetState where
  translationCache : List (String × String)
  currentAPIIndex : ℕ
deriving DecidableEq, Repr

/-- The number of entries of `this.translationAPIs`. -/
def numAPIs : ℕ := 3

/-- The loop-break condition `translated && translated !== text`. -/
def truthyAndNe (t : Option String) (text : String) : Bool :=
  match t with
  | some s => s ≠ "" && s ≠ text
  | none => false

/-- The `for` loop over the API list: try each index other than the current
one, overwrite `translated` each time, break (installing the new current
index) on the first truthy result different from `text`. -/
def fallbackLoop (oracle : ℕ → Option String) (text : String) (cur : ℕ) :
    List ℕ → Option String → List ℕ → Option String × ℕ × List ℕ
  | [], translated, calls => (translated, cur, calls)
  | i :: rest, translated, calls =>
      if i = cur then fallbackLoop oracle text cur rest translated calls
      else
        let t := oracle i
        if truthyAndNe t text then (t, i, calls ++ [i])
        else fallbackLoop oracle text cur rest t (calls ++ [i])

/-- The API-pass of `translateWithFallback` on a cache miss: try the current
API; if its result is falsy or equal to the input, run the fallback loop.
Yields the final `translated` value, `currentAPIIndex`, and invoked APIs. -/
def missR (oracle : ℕ → String → Option String) (st : WidgetState) (text : String) :
    Option String × ℕ × List ℕ :=
  if !optTruthy (oracle st.currentAPIIndex text)
      || oracle st.currentAPIIndex text == some text then
    fallbackLoop (fun i => oracle i text) text st.currentAPIIndex (List.range numAPIs)
      (oracle st.currentAPIIndex text) [st.currentAPIIndex]
  else (oracle st.currentAPIIndex text, st.currentAPIIndex, ([st.currentAPIIndex] : List ℕ))

/-- The tail of `translateWithFallback` on a cache miss: cache a truthy
`translated`, install the (possibly new) current index, return
`translated || text`. -/
def translateMiss (oracle : ℕ → String → Option String) (st : WidgetState) (text : String) :
    String × WidgetState × List ℕ :=
  (jsOrStr (missR oracle st text).1 text,
   ⟨if optTruthy (missR oracle st text).1 then
       setKey st.translationCache text ((missR oracle st text).1.getD "")
     else st.translationCache,
    (missR oracle st text).2.1⟩,
   (missR oracle st text).2.2)

/-- `translateWithFallback(text)`: cache hit short-circuits; otherwise the
cache-miss pass above. Also returns the indices of the APIs invoked. -/
def translateWithFallback (oracle : ℕ → String → Option String) (st : WidgetState)
    (text : String) : String × WidgetState × List ℕ :=
  match alookup st.translationCache text with
  | some v => (v, st, [])
  | none => translateMiss oracle st text

/-- A break can only happen on a truthy value: if the loop result is not
truthy, the current index was left unchanged and the cache-relevant value is
whatever was last overwritten. -/
theorem fallbackLoop_not_truthy_idx (oracle : ℕ → Option String) (text : String) (cur : ℕ) :
    ∀ (l : List ℕ) (t0 : Option String) (calls : List ℕ),
      optTruthy (fallbackLoop oracle text cur l t0 calls).1 = false →
      (fallbackLoop oracle text cur l t0 calls).2.1 = cur := by
  intro l
  induction l with
  | nil => intro t0 calls _; rfl
  | cons i rest ih =>
      intro t0 calls h
      by_cases hi : i = cur
      · rw [fallbackLoop, if_pos hi] at h ⊢
        exact ih t0 calls h
      · rw [fallbackLoop, if_neg hi] at h ⊢
        by_cases hb : truthyAndNe (oracle i) text = true
        · rw [if_pos hb] at h ⊢
          exfalso
          cases ho : oracle i with
          | none => rw [ho] at hb; simp [truthyAndNe] at hb
          | some s =>
              rw [ho] at hb h
              simp [truthyAndNe] at hb
              simp [optTruthy, hb.1] at h
        · rw [if_neg hb] at h ⊢
          exact ih _ _ h

/-- If every index in the list is the current one, fails, or yields the input
text itself, the loop result is `none` or `some text`. -/
theorem fallbackLoop_all_fail (oracle : ℕ → Option String) (text : String) (cur : ℕ) :
    ∀ (l : List ℕ) (t0 : Option String) (calls : List ℕ),
      (∀ i ∈ l, i = cur ∨ oracle i = none ∨ oracle i = some text) →
      (t0 = none ∨ t0 = some text) →
      ((fallbackLoop oracle text cur l t0 calls).1 = none ∨
        (fallbackLoop oracle text cur l t0 calls).1 = some text) := by
  intro l
  induction l with
  | nil => intro t0 calls _ h0; exact h0
  | cons i rest ih =>
      intro t0 calls hall h0
      have hi := hall i (List.mem_cons_self i rest)
      have hrest : ∀ j ∈ rest, j = cur ∨ oracle j = none ∨ oracle j = some text :=
        fun j hj => hall j (List.mem_cons_of_mem i hj)
      by_cases hic : i = cur
      · rw [fallbackLoop, if_pos hic]
        exact ih t0 calls hrest h0
      · rw [fallbackLoop, if_neg hic]
        rcases hi with hi | hi | hi
        · exact absurd hi hic
        · rw [hi]
          have hb : truthyAndNe none text = false := rfl
          rw [if_neg (by simp [hb])]
          exact ih _ _ hrest (Or.inl rfl)
        · rw [hi]
          have hb : truthyAndNe (some text) text = false := by simp [truthyAndNe]
          rw [if_neg (by simp [hb])]
          exact ih _ _ hrest (Or.inr rfl)

/-- If the first index in the list that is not the current one and passes the
break test is `i`, the loop returns `(oracle i, i, _)`. -/
theorem fallbackLoop_first_success (oracle : ℕ → Option String) (text : String) (cur : ℕ)
    (i : ℕ) (hi : i ≠ cur) (hsucc : truthyAndNe (oracle i) text = true) :
    ∀ (l1 : List ℕ) (t0 : Option String) (calls : List ℕ),
      (∀ j ∈ l1, j = cur ∨ truthyAndNe (oracle j) text = false) →
      ∀ l2, ∃ cs, fallbackLoop oracle text cur (l1 ++ i :: l2) t0 calls = (oracle i, i, cs) := by
  intro l1
  induction l1 with
  | nil =>
      intro t0 calls _ l2
      refine ⟨calls ++ [i], ?_⟩
      rw [List.nil_append, fallbackLoop, if_neg hi, if_pos hsucc]
  | cons j rest ih =>
      intro t0 calls hall l2
      have hj := hall j (List.mem_cons_self j rest)
      have hrest : ∀ k ∈ rest, k = cur ∨ truthyAndNe (oracle k) text = false :=
        fun k hk => hall k (List.mem_cons_of_mem j hk)
      rw [List.cons_append, fallbackLoop]
      rcases hj with hj | hj
      · rw [if_pos hj]
        exact ih t0 calls hrest l2
      · by_cases hjc : j = cur
        · rw [if_pos hjc]
          exact ih t0 calls hrest l2
        · rw [if_neg hjc, if_neg (by simp [hj])]
          exact ih _ _ hrest l2

theorem jsOrStr_some_self (text : String) : jsOrStr (some text) text = text := by
  show (if text = "" then text else text) = text
  split_ifs <;> rfl

theorem missR_not_truthy_idx (oracle : ℕ → String → Option String) (st : WidgetState)
    (text : String) (h : optTruthy (missR oracle st text).1 = false) :
    (missR oracle st text).2.1 = st.currentAPIIndex := by
  unfold missR at *
  split_ifs at * with hcond
  · exact fallbackLoop_not_truthy_idx _ _ _ _ _ _ h
  · rfl

theorem translateWithFallback_cache_hit (oracle : ℕ → String → Option String)
    (st : WidgetState) (text v : String)
    (hv : alookup st.translationCache text = some v) :
    translateWithFallback oracle st text = (v, st, []) := by
  unfold translateWithFallback
  rw [hv]

theorem translateWithFallback_cache_miss (oracle : ℕ → String → Option String)
    (st : WidgetState) (text : String)
    (hv : alookup st.translationCache text = none) :
    translateWithFallback oracle st text = translateMiss oracle st text := by
  unfold translateWithFallback
  rw [hv]

/-- C3 counterexample: with every API failing, the first call caches nothing,
so a second call with the same text performs the same three network requests
again, refuting "the second call performing no network request". -/
theorem translate_cache_second_call_counterexample :
    (translateWithFallback (fun _ _ => none) ⟨[], 0⟩ "hello").2.2 = [0, 1, 2] ∧
    (translateWithFallback (fun _ _ => none)
        ((translateWithFallback (fun _ _ => none) ⟨[], 0⟩ "hello").2.1) "hello").2.2 ≠ [] := by
  constructor
  · decide
  · decide

/-- C3 (amended): a cached text is returned from the cache with no API
invocation and unchanged state; two successive calls with the same text return
the same result; and the second call performs no network request provided the
first call left the text cached (which happens exactly when it obtained a
truthy translation result — when every API fails nothing is cached and the
requests are repeated). -/
theorem translate_cache_amended (oracle : ℕ → String → Option String) (st : WidgetState)
    (text : String) :
    (∀ v, alookup st.translationCache text = some v →
      translateWithFallback oracle st text = (v, st, [])) ∧
    ((translateWithFallback oracle ((translateWithFallback oracle st text).2.1) text).1 =
      (translateWithFallback oracle st text).1) ∧
    (∀ v, alookup (translateWithFallback oracle st text).2.1.translationCache text = some v →
      (translateWithFallback oracle ((translateWithFallback oracle st text).2.1) text).2.2
        = []) := by
  refine ⟨fun v hv => translateWithFallback_cache_hit oracle st text v hv, ?_⟩
  cases hc : alookup st.translationCache text with
  | some v =>
      have h1 := translateWithFallback_cache_hit oracle st text v hc
      rw [h1]
      exact ⟨by rw [h1], fun v' _ => by rw [h1]⟩
  | none =>
      have h1 := translateWithFallback_cache_miss oracle st text hc
      cases ht : optTruthy (missR oracle st text).1 with
      | true =>
          cases hro : (missR oracle st text).1 with
          | none => rw [hro] at ht; simp [optTruthy] at ht
          | some s =>
              have hs : s ≠ "" := by
                rw [hro] at ht
                simpa [optTruthy] using ht
              have hF2 : translateWithFallback oracle st text =
                  (s, ⟨setKey st.translationCache text s, (missR oracle st text).2.1⟩,
                    (missR oracle st text).2.2) := by
                rw [h1]
                unfold translateMiss
                rw [hro]
                rw [show optTruthy (some s) = true by simpa [optTruthy] using hs]
                rw [show jsOrStr (some s) text = s by simp [jsOrStr, hs]]
                rfl
              rw [hF2]
              have hsecond : translateWithFallback oracle
                  (⟨setKey st.translationCache text s, (missR oracle st text).2.1⟩ :
                    WidgetState) text =
                  (s, ⟨setKey st.translationCache text s, (missR oracle st text).2.1⟩, []) :=
                translateWithFallback_cache_hit oracle _ text s (alookup_setKey _ _ _)
              exact ⟨by rw [hsecond], fun v' _ => by rw [hsecond]⟩
      | false =>
          have hidx := missR_not_truthy_idx oracle st text ht
          have hF2 : translateWithFallback oracle st text =
              (jsOrStr (missR oracle st text).1 text, st, (missR oracle st text).2.2) := by
            rw [h1]
            unfold translateMiss
            rw [ht, hidx]
            rfl
          rw [hF2]
          refine ⟨by rw [hF2], fun v' hv' => ?_⟩
          simp only at hv'
          rw [hc] at hv'
          exact absurd hv' (by simp)

/-- Witness for C3 (amended) at a concrete pre-cached state. -/
theorem translate_cache_amended_witness :
    translateWithFallback (fun _ _ => none) ⟨[("hola", "salut")], 0⟩ "hola" =
      ("salut", ⟨[("hola", "salut")], 0⟩, []) ∧
    (translateWithFallback (fun _ _ => none)
        ((translateWithFallback (fun _ _ => none) ⟨[("hola", "salut")], 0⟩ "hola").2.1)
        "hola").2.2 = [] :=
  ⟨(translate_cache_amended (fun _ _ => none) ⟨[("hola", "salut")], 0⟩ "hola").1 "salut"
      (by decide),
   (translate_cache_amended (fun _ _ => none) ⟨[("hola", "salut")], 0⟩ "hola").2.2 "salut"
      (by decide)⟩

/-- C4: on a cache miss, when the current API and every other API each fail or
return the input text, `translateWithFallback` returns the original text
unchanged; and when the fallback loop is entered and `i` is the first
non-current API returning a truthy translation different from the input, that
translation is returned, API `i` becomes the current one, and the translation
is stored in the cache. -/
theorem translate_fallback_failure_and_success (oracle : ℕ → String → Option String)
    (st : WidgetState) (text : String) :
    (alookup st.translationCache text = none →
      st.currentAPIIndex < numAPIs →
      (∀ i, i < numAPIs → oracle i text = none ∨ oracle i text = some text) →
      (translateWithFallback oracle st text).1 = text) ∧
    (∀ i s, alookup st.translationCache text = none →
      (optTruthy (oracle st.currentAPIIndex text) = false ∨
        oracle st.currentAPIIndex text = some text) →
      i < numAPIs → i ≠ st.currentAPIIndex →
      oracle i text = some s → s ≠ "" → s ≠ text →
      (∀ j, j < i → j ≠ st.currentAPIIndex → truthyAndNe (oracle j text) text = false) →
      (translateWithFallback oracle st text).1 = s ∧
        (translateWithFallback oracle st text).2.1 =
          ⟨setKey st.translationCache text s, i⟩) := by
  constructor
  · intro hc hcur hall
    rw [translateWithFallback_cache_miss oracle st text hc]
    have ht0 := hall st.currentAPIIndex hcur
    have hcond : (!optTruthy (oracle st.currentAPIIndex text)
        || oracle st.currentAPIIndex text == some text) = true := by
      rcases ht0 with h | h <;> simp [h, optTruthy]
    have hloop := fallbackLoop_all_fail (fun i => oracle i text) text st.currentAPIIndex
      (List.range numAPIs) (oracle st.currentAPIIndex text) [st.currentAPIIndex]
      (fun i hi => by
        rcases hall i (List.mem_range.mp hi) with h | h
        · exact Or.inr (Or.inl h)
        · exact Or.inr (Or.inr h))
      (by rcases ht0 with h | h
          · exact Or.inl h
          · exact Or.inr h)
    have hmissR : missR oracle st text =
        fallbackLoop (fun i => oracle i text) text st.currentAPIIndex (List.range numAPIs)
          (oracle st.currentAPIIndex text) [st.currentAPIIndex] := by
      unfold missR
      rw [if_pos hcond]
    unfold translateMiss
    rw [hmissR]
    rcases hloop with h | h <;> rw [h]
    · rfl
    · exact jsOrStr_some_self text
  · intro i s hc ht0 hi hine hos hs hst hfirst
    rw [translateWithFallback_cache_miss oracle st text hc]
    have hcond : (!optTruthy (oracle st.currentAPIIndex text)
        || oracle st.currentAPIIndex text == some text) = true := by
      rcases ht0 with h | h
      · simp [h]
      · simp [h]
    have hsucc : truthyAndNe ((fun j => oracle j text) i) text = true := by
      simp only [hos, truthyAndNe]
      simp [hs, hst]
    have hi3 : i < 3 := by simpa [numAPIs] using hi
    have hsplit : ∃ l2, List.range numAPIs = List.range i ++ i :: l2 := by
      interval_cases i
      · exact ⟨[1, 2], rfl⟩
      · exact ⟨[2], rfl⟩
      · exact ⟨[], rfl⟩
    obtain ⟨l2, hl2⟩ := hsplit
    have hl1 : ∀ j ∈ List.range i, j = st.currentAPIIndex ∨
        truthyAndNe ((fun k => oracle k text) j) text = false := by
      intro j hj
      by_cases hjc : j = st.currentAPIIndex
      · exact Or.inl hjc
      · exact Or.inr (hfirst j (List.mem_range.mp hj) hjc)
    obtain ⟨cs, hloop⟩ := fallbackLoop_first_success (fun j => oracle j text) text
      st.currentAPIIndex i hine hsucc (List.range i) (oracle st.currentAPIIndex text)
      [st.currentAPIIndex] hl1 l2
    have hmissR : missR oracle st text = (some s, i, cs) := by
      unfold missR
      rw [if_pos hcond, hl2, hloop, hos]
    unfold translateMiss
    rw [hmissR]
    constructor
    · simp [jsOrStr, hs]
    · simp only
      rw [show optTruthy (some s) = true by simpa [optTruthy] using hs]
      rfl

/-- Witness for C4: a concrete oracle where API 0 (the current one) fails and
API 1 succeeds, plus a concrete all-fail oracle. -/
theorem translate_fallback_witness :
    (translateWithFallback (fun _ _ => none) ⟨[], 0⟩ "hello").1 = "hello" ∧
    (translateWithFallback (fun i _ => if i = 1 then some "bonjour" else none)
        ⟨[], 0⟩ "hello").1 = "bonjour" ∧
      (translateWithFallback (fun i _ => if i = 1 then some "bonjour" else none)
        ⟨[], 0⟩ "hello").2.1 = ⟨setKey [] "hello" "bonjour", 1⟩ :=
  ⟨(translate_fallback_failure_and_success (fun _ _ => none) ⟨[], 0⟩ "hello").1
      rfl (by decide) (fun i _ => Or.inl rfl),
   (translate_fallback_failure_and_success (fun i _ => if i = 1 then some "bonjour" else none)
      ⟨[], 0⟩ "hello").2 1 "bonjour" rfl (Or.inl rfl) (by decide) (by decide) rfl
      (by decide) (by decide) (fun j hj hjne => by interval_cases j; simp_all)⟩

/-! ## Chat assistant (`AIAssistant` class)

The provider back ends (`queryGroq`, `queryHuggingFace`, `queryOllama`) are
pure network calls with no state writes; they are an oracle
`provider → prompt → Except error response`. -/

structure HistEntry where
  user : String
  assistant : String
  timestamp : String
  language : String
deriving DecidableEq, Repr

structure AssistantState where
  apiProvider : String
  conversationHistory : List HistEntry
  maxHistoryLength : ℕ
  isProcessing : Bool
  selectedLanguage : String
deriving DecidableEq, Repr

/-- `addToHistory(userMessage, assistantResponse)`: push the entry, then keep
only the last `maxHistoryLength` entries when the bound is exceeded
(`slice(-maxHistoryLength)`). -/
def addToHistory (st : AssistantState) (userMessage assistantResponse timestamp : String) :
    AssistantState :=
  let pushed := st.conversationHistory ++
    [{ user := userMessage, assistant := assistantResponse, timestamp := timestamp,
       language := st.selectedLanguage }]
  { st with conversationHistory :=
      if st.maxHistoryLength < pushed.length then
        pushed.drop (pushed.length - st.maxHistoryLength)
      else pushed }

def busyMessage : String :=
  "⏳ I\x27m still processing your previous message. Please wait a moment..."

/-- The `switch (this.apiProvider)` dispatch of `sendMessage`. -/
def queryProvider (net : String → String → Except String String) (provider prompt : String) :
    Except String String :=
  if provider = "groq" then net "groq" prompt
  else if provider = "huggingface" then net "huggingface" prompt
  else if provider = "ollama" then net "ollama" prompt
  else Except.error "Unknown provider"

/-- The network requests the dispatch performs (the `default` case throws
before any request). -/
def providerCalls (provider : String) : List String :=
  if provider = "groq" || provider = "huggingface" || provider = "ollama" then [provider]
  else []

/-- `sendMessage(prompt)`: reject blank prompts, refuse while `isProcessing`,
otherwise dispatch to the provider, record the exchange on success, format
`⚠️`-prefixed messages on error, and clear `isProcessing` in `finally`. -/
def sendMessage (net : String → String → Except String String) (ts : String)
    (st : AssistantState) (prompt : String) : String × AssistantState × List String :=
  if strTrim prompt = "" then ("⚠️ Please type something!", st, [])
  else if st.isProcessing then (busyMessage, st, [])
  else
    match queryProvider net st.apiProvider prompt with
    | Except.ok response =>
        (response,
         { addToHistory { st with isProcessing := true } prompt response ts with
             isProcessing := false },
         providerCalls st.apiProvider)
    | Except.error e =>
        ("⚠️ " ++ (if e = "" then
            "Connection error. Please check your internet and try again." else e),
         { st with isProcessing := false },
         providerCalls st.apiProvider)

/-! ## Isolated dictionary (`Dictionary` class) and the combined browser state

The dictionary result values are parsed from the AI response by pure string
operations (`parseAIResponse` of the dictionary does regex extraction only and
touches no state); the model carries the trimmed response text itself as the
result value, which leaves every state transition exact. -/

structure DictCacheEntry where
  data : String
  timestamp : ℤ
deriving DecidableEq, Repr

structure DictState where
  apiProvider : String
  apiKey : Option String
  cache : List (String × DictCacheEntry)
  cacheExpiry : ℤ
  isOpen : Bool
  isProcessing : Bool
  sourceLang : String
  targetLang : String
deriving DecidableEq, Repr

/-- The browser page holds both singletons; `window.dictionary` methods see
only the `dict` component (`this`), `window.aiAssistant` only `assistant`. -/
structure World where
  assistant : AssistantState
  dict : DictState
deriving DecidableEq, Repr

def dictBusyError : String := "Dictionary AI is busy. Please wait..."

/-- `Dictionary.queryAI(prompt)` acting on the dictionary instance: refuse
while `isProcessing`, otherwise perform the fetch and return the trimmed
message content, clearing `isProcessing` in `finally`. -/
def queryAIDict (net : String → Except String String) (d : DictState) (prompt : String) :
    Except String String × DictState × List String :=
  if d.isProcessing then (Except.error dictBusyError, d, [])
  else
    match net prompt with
    | Except.ok response => (Except.ok (strTrim response), { d with isProcessing := false }, [prompt])
    | Except.error e => (Except.error e, { d with isProcessing := false }, [prompt])

/-- `Dictionary.queryAI` on the whole browser state. -/
def queryAI (net : String → Except String String) (w : World) (prompt : String) :
    Except String String × World × List String :=
  ((queryAIDict net w.dict prompt).1,
   { w with dict := (queryAIDict net w.dict prompt).2.1 },
   (queryAIDict net w.dict prompt).2.2)

/-- `getFromCache(key)`: delete and miss on an expired entry. -/
def getFromCache (d : DictState) (now : ℤ) (key : String) : Option String × DictState :=
  match alookup d.cache key with
  | none => (none, d)
  | some entry =>
      if d.cacheExpiry < now - entry.timestamp then
        (none, { d with cache := delKey d.cache key })
      else (some entry.data, d)

/-- `saveToCache(key, data)`. -/
def saveToCache (d : DictState) (now : ℤ) (key data : String) : DictState :=
  { d with cache := setKey d.cache key ⟨data, now⟩ }

/-- The `supportedLanguages` name table. -/
def supportedLanguages : List (String × String) :=
  [("en", "English"), ("ta", "Tamil"), ("hi", "Hindi"), ("fr", "French"), ("de", "German")]

/-- `this.supportedLanguages[code]?.name || code`. -/
def langName (code : String) : String := jsOrStr (alookup supportedLanguages code) code

/-- The dictionary prompt template of `performAILookup`. -/
def lookupPrompt (word sourceLangName targetLangName : String) : String :=
  "You are a professional dictionary. Translate and explain this word/phrase with extreme accuracy.\n\nWord/Phrase: \"" ++ word
    ++ "\"\nSource Language: " ++ sourceLangName
    ++ "\nTarget Language: " ++ targetLangName
    ++ "\n\nCRITICAL: Provide verified, standard translations only. If unsure, state \"needs verification\".\n- Double-check vocabulary accuracy\n- For objects/foods: Verify exact translation (apple ≠ guava)\n- Provide most common/standard translation first\n\nFormat your response EXACTLY like this:\n\nTRANSLATION: ["
    ++ targetLangName
    ++ " translation]\nDEFINITION: [One clear English sentence explaining the meaning]\nPART OF SPEECH: [noun/verb/adjective/etc]\nEXAMPLES:\n- [Example sentence 1 using \"" ++ word
    ++ "\"]\n- [Example sentence 2 using \"" ++ word
    ++ "\"]\n- [Example sentence 3 using \"" ++ word
    ++ "\"]\nNOTES: [Usage tips or common mistakes to avoid]\n\nBe precise and accurate."

/-- `Dictionary.lookup(word, sourceLang, targetLang)` on the dictionary
instance: reject blank words, consult the cache, else `performAILookup`
(which calls `queryAI` and caches a successful result). -/
def dictLookupD (net : String → Except String String) (now : ℤ) (d : DictState)
    (word sourceLang targetLang : String) : Except String String × DictState × List String :=
  if strTrim word = "" then (Except.error "Word cannot be empty", d, [])
  else
    let w := strTrim word
    let cacheKey := w ++ "-" ++ sourceLang ++ "-" ++ targetLang
    let c := getFromCache d now cacheKey
    match c.1 with
    | some result => (Except.ok result, c.2, [])
    | none =>
        let q := queryAIDict net c.2 (lookupPrompt w (langName sourceLang) (langName targetLang))
        match q.1 with
        | Except.ok aiResponse =>
            (Except.ok aiResponse, saveToCache q.2.1 now cacheKey aiResponse, q.2.2)
        | Except.error e =>
            (Except.error ("Dictionary AI lookup failed: " ++ e), q.2.1, q.2.2)

/-- `Dictionary.lookup` on the whole browser state. -/
def dictLookup (net : String → Except String String) (now : ℤ) (w : World)
    (word sourceLang targetLang : String) : Except String String × World × List String :=
  ((dictLookupD net now w.dict word sourceLang targetLang).1,
   { w with dict := (dictLookupD net now w.dict word sourceLang targetLang).2.1 },
   (dictLookupD net now w.dict word sourceLang targetLang).2.2)

/-- `translation.replace(/["""]/g, '')`. -/
def removeQuoteChars (s : String) : String :=
  String.mk (s.data.filter (fun c => !(c == '"')))

structure TranslationResult where
  text : String
  service : String
  confidence : ℚ
deriving DecidableEq, Repr

/-- `Dictionary.translate(text, sourceLang, targetLang)` on the dictionary
instance. -/
def dictTranslateD (net : String → Except String String) (d : DictState)
    (text sourceLang targetLang : String) :
    Except String TranslationResult × DictState × List String :=
  if strTrim text = "" then (Except.error "Text cannot be empty", d, [])
  else
    let prompt := "Translate this " ++ langName sourceLang ++ " text to " ++ langName targetLang
      ++ ". Only provide the translation, nothing else:\n\n\"" ++ text ++ "\""
    let q := queryAIDict net d prompt
    match q.1 with
    | Except.ok translation =>
        (Except.ok { text := strTrim (removeQuoteChars translation),
                     service := "Dictionary AI", confidence := 95/100 }, q.2.1, q.2.2)
    | Except.error e => (Except.error e, q.2.1, q.2.2)

/-- `Dictionary.translate` on the whole browser state. -/
def dictTranslate (net : String → Except String String) (w : World)
    (text sourceLang targetLang : String) :
    Except String TranslationResult × World × List String :=
  ((dictTranslateD net w.dict text sourceLang targetLang).1,
   { w with dict := (dictTranslateD net w.dict text sourceLang targetLang).2.1 },
   (dictTranslateD net w.dict text sourceLang targetLang).2.2)

/-- C10: after every `addToHistory` the history holds at most
`maxHistoryLength` (10) entries, and when the bound is exceeded the retained
entries are exactly the most recent ones, in their original order (the suffix
of the pushed history of length `min (length+1) 10`). -/
theorem history_bounded (st : AssistantState) (u a ts : String)
    (hmax : st.maxHistoryLength = 10) :
    (addToHistory st u a ts).conversationHistory.length ≤ 10 ∧
    (addToHistory st u a ts).conversationHistory =
      (st.conversationHistory ++
        [({ user := u, assistant := a, timestamp := ts,
            language := st.selectedLanguage } : HistEntry)]).drop
        ((st.conversationHistory.length + 1) - min (st.conversationHistory.length + 1) 10) := by
  unfold addToHistory
  simp only [hmax]
  set p := st.conversationHistory ++
    [{ user := u, assistant := a, timestamp := ts,
       language := st.selectedLanguage }] with hp
  have hplen : p.length = st.conversationHistory.length + 1 := by simp [hp]
  split_ifs with h
  · constructor
    · rw [List.length_drop]
      omega
    · congr 1
      rw [hplen] at h ⊢
      omega
  · constructor
    · omega
    · have h10 : (st.conversationHistory.length + 1) -
          min (st.conversationHistory.length + 1) 10 = 0 := by
        rw [hplen] at h
        omega
      rw [h10, List.drop_zero]

/-- Witness for C10 at a concrete full history. -/
theorem history_bounded_witness :
    (addToHistory
      { apiProvider := "groq",
        conversationHistory := List.replicate 10 ⟨"u", "a", "t", "auto"⟩,
        maxHistoryLength := 10, isProcessing := false, selectedLanguage := "auto" }
      "u2" "a2" "t2").conversationHistory.length ≤ 10 ∧
    (addToHistory
      { apiProvider := "groq",
        conversationHistory := List.replicate 10 ⟨"u", "a", "t", "auto"⟩,
        maxHistoryLength := 10, isProcessing := false, selectedLanguage := "auto" }
      "u2" "a2" "t2").conversationHistory =
      ((List.replicate 10 (⟨"u", "a", "t", "auto"⟩ : HistEntry)) ++
        [({ user := "u2", assistant := "a2", timestamp := "t2",
            language := "auto" } : HistEntry)]).drop
        (((List.replicate 10 (⟨"u", "a", "t", "auto"⟩ : HistEntry)).length + 1) -
          min ((List.replicate 10 (⟨"u", "a", "t", "auto"⟩ : HistEntry)).length + 1) 10) :=
  history_bounded
    { apiProvider := "groq",
      conversationHistory := List.replicate 10 ⟨"u", "a", "t", "auto"⟩,
      maxHistoryLength := 10, isProcessing := false, selectedLanguage := "auto" }
    "u2" "a2" "t2" rfl

/-- A chat-assistant state with no request in flight. -/
def assistantFree : AssistantState :=
  { apiProvider := "groq", conversationHistory := [], maxHistoryLength := 10,
    isProcessing := false, selectedLanguage := "auto" }

/-- A dictionary state with no request in flight. -/
def dictFree : DictState :=
  { apiProvider := "groq", apiKey := none, cache := [], cacheExpiry := 3600000,
    isOpen := false, isProcessing := false, sourceLang := "en", targetLang := "ta" }

/-- C5 counterexample: both `AIAssistant.sendMessage` and `Dictionary.queryAI`
DO short-circuit a request while a previous request of the same module is
processing — `sendMessage` returns the wait message and `queryAI` throws the
busy error, in both cases without any network request — refuting the claim
that no public operation refuses or short-circuits for that reason. -/
theorem busy_guard_counterexample :
    (sendMessage (fun _ _ => Except.ok "hi") "t0"
        { assistantFree with isProcessing := true } "hello").1 = busyMessage ∧
    (sendMessage (fun _ _ => Except.ok "hi") "t0"
        { assistantFree with isProcessing := true } "hello").2.2 = [] ∧
    (sendMessage (fun _ _ => Except.ok "hi") "t0" assistantFree "hello").1 = "hi" ∧
    (queryAI (fun _ => Except.ok "hola")
        ⟨assistantFree, { dictFree with isProcessing := true }⟩ "q").1 =
      Except.error dictBusyError ∧
    (queryAI (fun _ => Except.ok "hola")
        ⟨assistantFree, { dictFree with isProcessing := true }⟩ "q").2.2 = [] ∧
    (queryAI (fun _ => Except.ok "hola") ⟨assistantFree, dictFree⟩ "q").2.2 = ["q"] :=
  ⟨rfl, rfl, rfl, rfl, rfl, rfl⟩

/-- C5 (amended): each module guards with its own `isProcessing` flag: while a
previous request of the same module is processing, `sendMessage` returns the
wait message and `queryAI` throws the busy error, each leaving the state
unchanged and performing no network request; there is no queueing. -/
theorem busy_guard_amended (net : String → String → Except String String)
    (dnet : String → Except String String) (ts : String) (st : AssistantState) (w : World)
    (prompt dprompt : String) (hp : strTrim prompt ≠ "")
    (h1 : st.isProcessing = true) (h2 : w.dict.isProcessing = true) :
    sendMessage net ts st prompt = (busyMessage, st, []) ∧
    queryAI dnet w dprompt = (Except.error dictBusyError, w, []) := by
  constructor
  · unfold sendMessage
    rw [if_neg hp, if_pos h1]
  · unfold queryAI queryAIDict
    rw [h2]
    rfl

/-- Witness for C5 (amended) at concrete busy states. -/
theorem busy_guard_amended_witness :
    sendMessage (fun _ _ => Except.ok "yo") "t1"
        { assistantFree with isProcessing := true } "hey" =
      (busyMessage, { assistantFree with isProcessing := true }, []) ∧
    queryAI (fun _ => Except.ok "yo")
        ⟨assistantFree, { dictFree with isProcessing := true }⟩ "w" =
      (Except.error dictBusyError,
        ⟨assistantFree, { dictFree with isProcessing := true }⟩, []) :=
  busy_guard_amended (fun _ _ => Except.ok "yo") (fun _ => Except.ok "yo") "t1"
    { assistantFree with isProcessing := true }
    ⟨assistantFree, { dictFree with isProcessing := true }⟩ "hey" "w"
    (by decide) rfl rfl

/-- C8: the dictionary operations `queryAI`, `lookup`, `translate` leave the
chat assistant's state (`conversationHistory`, `apiProvider`, `isProcessing`)
unchanged, and read only the dictionary instance's own state: their results,
dictionary-state effects, and network requests depend only on the `dict`
component of the browser state. -/
theorem dictionary_isolated_from_assistant (net : String → Except String String) (now : ℤ)
    (w w2 : World) (prompt word sourceLang targetLang text : String) :
    (queryAI net w prompt).2.1.assistant = w.assistant ∧
    (dictLookup net now w word sourceLang targetLang).2.1.assistant = w.assistant ∧
    (dictTranslate net w text sourceLang targetLang).2.1.assistant = w.assistant ∧
    (w.dict = w2.dict →
      (queryAI net w prompt).1 = (queryAI net w2 prompt).1 ∧
      (queryAI net w prompt).2.1.dict = (queryAI net w2 prompt).2.1.dict ∧
      (queryAI net w prompt).2.2 = (queryAI net w2 prompt).2.2 ∧
      (dictLookup net now w word sourceLang targetLang).1 =
        (dictLookup net now w2 word sourceLang targetLang).1 ∧
      (dictLookup net now w word sourceLang targetLang).2.1.dict =
        (dictLookup net now w2 word sourceLang targetLang).2.1.dict ∧
      (dictLookup net now w word sourceLang targetLang).2.2 =
        (dictLookup net now w2 word sourceLang targetLang).2.2 ∧
      (dictTranslate net w text sourceLang targetLang).1 =
        (dictTranslate net w2 text sourceLang targetLang).1 ∧
      (dictTranslate net w text sourceLang targetLang).2.1.dict =
        (dictTranslate net w2 text sourceLang targetLang).2.1.dict ∧
      (dictTranslate net w text sourceLang targetLang).2.2 =
        (dictTranslate net w2 text sourceLang targetLang).2.2) := by
  refine ⟨rfl, rfl, rfl, fun hd => ?_⟩
  unfold queryAI dictLookup dictTranslate
  rw [hd]
  exact ⟨rfl, rfl, rfl, rfl, rfl, rfl, rfl, rfl, rfl⟩

/-- Witness for C8 at concrete states differing only in the assistant. -/
theorem dictionary_isolated_witness :
    (queryAI (fun _ => Except.ok "def") ⟨assistantFree, dictFree⟩ "apple").2.1.assistant =
      assistantFree ∧
    (queryAI (fun _ => Except.ok "def") ⟨assistantFree, dictFree⟩ "apple").1 =
      (queryAI (fun _ => Except.ok "def")
        ⟨{ assistantFree with apiProvider := "ollama" }, dictFree⟩ "apple").1 :=
  ⟨(dictionary_isolated_from_assistant (fun _ => Except.ok "def") 0
      ⟨assistantFree, dictFree⟩
      ⟨{ assistantFree with apiProvider := "ollama" }, dictFree⟩
      "apple" "w" "en" "ta" "t").1,
   ((dictionary_isolated_from_assistant (fun _ => Except.ok "def") 0
      ⟨assistantFree, dictFree⟩
      ⟨{ assistantFree with apiProvider := "ollama" }, dictFree⟩
      "apple" "w" "en" "ta" "t").2.2.2 rfl).1⟩

/-! ## Journey cache (`getUserJourneyWithCache`)

`localStorage` is an association list from keys to stored journey documents;
a stored document carries its `lastUpdated` timestamp (milliseconds). -/

structure Journey where
  lastUpdated : ℤ
  payload : String
deriving DecidableEq, Repr

structure JourneyResult where
  success : Bool
  data : Option Journey := none
  source : Option String := none
  error : Option String := none
deriving DecidableEq, Repr

/-- The Firestore branch of `getUserJourneyWithCache`: fail with
`Journey not found` on a missing document, else write the document back to
`localStorage` and return it with source `firebase`. -/
def journeyFetchBranch (localStorage : List (String × Journey))
    (firestore : String → Option Journey) (userId : String) :
    JourneyResult × List (String × Journey) :=
  match firestore userId with
  | none => ({ success := false, error := some "Journey not found" }, localStorage)
  | some d =>
      ({ success := true, data := some d, source := some "firebase" },
       setKey localStorage ("userJourney_" ++ userId) d)

/-- `getUserJourneyWithCache(userId)`: use the `localStorage` entry under
`userJourney_<userId>` when its age is under five minutes, else take the
Firestore branch. Returns the result and the updated `localStorage`. -/
def getUserJourneyWithCache (now : ℤ) (localStorage : List (String × Journey))
    (firestore : String → Option Journey) (userId : String) :
    JourneyResult × List (String × Journey) :=
  match alookup localStorage ("userJourney_" ++ userId) with
  | some c =>
      if now - c.lastUpdated < 5 * 60 * 1000 then
        ({ success := true, data := some c, source := some "cache" }, localStorage)
      else journeyFetchBranch localStorage firestore userId
  | none => journeyFetchBranch localStorage firestore userId

theorem journey_cache_hit (now : ℤ) (ls : List (String × Journey))
    (fs : String → Option Journey) (userId : String) (c : Journey)
    (hc : alookup ls ("userJourney_" ++ userId) = some c)
    (hage : now - c.lastUpdated < 5 * 60 * 1000) :
    getUserJourneyWithCache now ls fs userId =
      ({ success := true, data := some c, source := some "cache" }, ls) := by
  unfold getUserJourneyWithCache
  simp only [hc]
  rw [if_pos hage]

theorem journey_cache_stale (now : ℤ) (ls : List (String × Journey))
    (fs : String → Option Journey) (userId : String) (c : Journey)
    (hc : alookup ls ("userJourney_" ++ userId) = some c)
    (hage : ¬ now - c.lastUpdated < 5 * 60 * 1000) :
    getUserJourneyWithCache now ls fs userId = journeyFetchBranch ls fs userId := by
  unfold getUserJourneyWithCache
  simp only [hc]
  rw [if_neg hage]

theorem journey_cache_none (now : ℤ) (ls : List (String × Journey))
    (fs : String → Option Journey) (userId : String)
    (hc : alookup ls ("userJourney_" ++ userId) = none) :
    getUserJourneyWithCache now ls fs userId = journeyFetchBranch ls fs userId := by
  unfold getUserJourneyWithCache
  simp only [hc]

theorem journeyFetchBranch_none (ls : List (String × Journey))
    (fs : String → Option Journey) (userId : String) (hf : fs userId = none) :
    journeyFetchBranch ls fs userId =
      ({ success := false, error := some "Journey not found" }, ls) := by
  unfold journeyFetchBranch
  simp only [hf]

theorem journeyFetchBranch_some (ls : List (String × Journey))
    (fs : String → Option Journey) (userId : String) (d : Journey)
    (hf : fs userId = some d) :
    journeyFetchBranch ls fs userId =
      ({ success := true, data := some d, source := some "firebase" },
       setKey ls ("userJourney_" ++ userId) d) := by
  unfold journeyFetchBranch
  simp only [hf]

theorem journeyFetchBranch_source (ls : List (String × Journey))
    (fs : String → Option Journey) (userId : String) :
    (journeyFetchBranch ls fs userId).1.source ≠ some "cache" := by
  unfold journeyFetchBranch
  cases hf : fs userId <;> simp

/-- C6: the cached journey is returned with source `cache` exactly when a
cached entry exists under `userJourney_<userId>` and is younger than five
minutes; otherwise the Firestore document is consulted: absence yields
`{success: false, error: Journey not found}` with `localStorage` untouched,
and presence stores the document back and returns it with source `firebase`. -/
theorem journey_cache_spec (now : ℤ) (ls : List (String × Journey))
    (fs : String → Option Journey) (userId : String) :
    ((getUserJourneyWithCache now ls fs userId).1.source = some "cache" ↔
      ∃ c, alookup ls ("userJourney_" ++ userId) = some c ∧
        now - c.lastUpdated < 5 * 60 * 1000) ∧
    (∀ c, alookup ls ("userJourney_" ++ userId) = some c →
      now - c.lastUpdated < 5 * 60 * 1000 →
      getUserJourneyWithCache now ls fs userId =
        ({ success := true, data := some c, source := some "cache" }, ls)) ∧
    ((∀ c, alookup ls ("userJourney_" ++ userId) = some c →
        ¬ now - c.lastUpdated < 5 * 60 * 1000) →
      fs userId = none →
      getUserJourneyWithCache now ls fs userId =
        ({ success := false, error := some "Journey not found" }, ls)) ∧
    ((∀ c, alookup ls ("userJourney_" ++ userId) = some c →
        ¬ now - c.lastUpdated < 5 * 60 * 1000) →
      ∀ d, fs userId = some d →
        getUserJourneyWithCache now ls fs userId =
          ({ success := true, data := some d, source := some "firebase" },
           setKey ls ("userJourney_" ++ userId) d)) := by
  have hfetch : ∀ c, alookup ls ("userJourney_" ++ userId) = some c →
      ¬ now - c.lastUpdated < 5 * 60 * 1000 →
      getUserJourneyWithCache now ls fs userId = journeyFetchBranch ls fs userId :=
    fun c hc hage => journey_cache_stale now ls fs userId c hc hage
  refine ⟨⟨?_, ?_⟩, ?_, ?_, ?_⟩
  · intro h
    cases hc : alookup ls ("userJourney_" ++ userId) with
    | some c =>
        by_cases hage : now - c.lastUpdated < 5 * 60 * 1000
        · exact ⟨c, rfl, hage⟩
        · rw [hfetch c hc hage] at h
          exact absurd h (journeyFetchBranch_source ls fs userId)
    | none =>
        rw [journey_cache_none now ls fs userId hc] at h
        exact absurd h (journeyFetchBranch_source ls fs userId)
  · rintro ⟨c, hc, hage⟩
    rw [journey_cache_hit now ls fs userId c hc hage]
  · intro c hc hage
    rw [journey_cache_hit now ls fs userId c hc hage]
  · intro hall hf
    cases hc : alookup ls ("userJourney_" ++ userId) with
    | some c =>
        rw [hfetch c hc (hall c hc), journeyFetchBranch_none ls fs userId hf]
    | none =>
        rw [journey_cache_none now ls fs userId hc, journeyFetchBranch_none ls fs userId hf]
  · intro hall d hf
    cases hc : alookup ls ("userJourney_" ++ userId) with
    | some c =>
        rw [hfetch c hc (hall c hc), journeyFetchBranch_some ls fs userId d hf]
    | none =>
        rw [journey_cache_none now ls fs userId hc, journeyFetchBranch_some ls fs userId d hf]

/-- Witness for C6: a fresh cached entry is served from the cache, and with an
empty `localStorage` a missing Firestore document reports `Journey not found`. -/
theorem journey_cache_witness :
    getUserJourneyWithCache 1000000
        [("userJourney_u1", ⟨900000, "doc"⟩)] (fun _ => none) "u1" =
      ({ success := true, data := some ⟨900000, "doc"⟩, source := some "cache" },
       [("userJourney_u1", ⟨900000, "doc"⟩)]) ∧
    getUserJourneyWithCache 1000000 [] (fun _ => none) "u1" =
      ({ success := false, error := some "Journey not found" }, []) :=
  ⟨(journey_cache_spec 1000000 [("userJourney_u1", ⟨900000, "doc"⟩)]
      (fun _ => none) "u1").2.1 ⟨900000, "doc"⟩ (by decide) (by decide),
   (journey_cache_spec 1000000 [] (fun _ => none) "u1").2.2.1
      (fun c hc => by simp [alookup] at hc) rfl⟩

/-! ## Page router (`PageConnectionManager.fetchPageContent`) -/

structure FetchResponse where
  ok : Bool
  status : ℕ
  text : String
deriving DecidableEq, Repr

/-- The seven-entry `pageMap`. -/
def pageMap : List (String × String) :=
  [("home", "../pages/home-ai.html"),
   ("alphabets", "../pages/alphabets-ai.html"),
   ("vocabulary", "../pages/vocabulary-ai.html"),
   ("grammar", "../pages/grammar-ai.html"),
   ("assessment", "../pages/final-assessment-ai.html"),
   ("results", "../pages/results.html"),
   ("profile", "../pages/botinteraction.html")]

/-- `pageMap[page] || pageMap['home']`. -/
def resolvePageUrl (page : String) : String :=
  jsOrStr (alookup pageMap page) (jsOrStr (alookup pageMap "home") "")

/-- `fetchPageContent(page)`: fetch the resolved URL, throw on a non-ok HTTP
response, else return the body text. `fetchFn` models `fetch`. -/
def fetchPageContent (fetchFn : String → FetchResponse) (page : String) :
    Except String String :=
  if !(fetchFn (resolvePageUrl page)).ok then
    Except.error ("Failed to fetch page: " ++ toString (fetchFn (resolvePageUrl page)).status)
  else Except.ok (fetchFn (resolvePageUrl page)).text

/-- C7: the page key resolves through the fixed seven-entry map, any key
outside the map resolves to the home page URL, and the fetch errors exactly
when the HTTP response is not ok, otherwise returning the fetched text. -/
theorem fetch_page_content_spec :
    (resolvePageUrl "home" = "../pages/home-ai.html" ∧
     resolvePageUrl "alphabets" = "../pages/alphabets-ai.html" ∧
     resolvePageUrl "vocabulary" = "../pages/vocabulary-ai.html" ∧
     resolvePageUrl "grammar" = "../pages/grammar-ai.html" ∧
     resolvePageUrl "assessment" = "../pages/final-assessment-ai.html" ∧
     resolvePageUrl "results" = "../pages/results.html" ∧
     resolvePageUrl "profile" = "../pages/botinteraction.html") ∧
    (∀ page, alookup pageMap page = none → resolvePageUrl page = "../pages/home-ai.html") ∧
    (∀ fetchFn page, (∃ e, fetchPageContent fetchFn page = Except.error e) ↔
      (fetchFn (resolvePageUrl page)).ok = false) ∧
    (∀ fetchFn page, (fetchFn (resolvePageUrl page)).ok = true →
      fetchPageContent fetchFn page = Except.ok (fetchFn (resolvePageUrl page)).text) := by
  refine ⟨⟨rfl, rfl, rfl, rfl, rfl, rfl, rfl⟩, fun page hnone => ?_, fun fetchFn page => ?_,
    fun fetchFn page hok => ?_⟩
  · unfold resolvePageUrl
    rw [hnone]
    rfl
  · unfold fetchPageContent
    cases hok : (fetchFn (resolvePageUrl page)).ok with
    | false =>
        constructor
        · intro _
          rfl
        · intro _
          exact ⟨"Failed to fetch page: " ++ toString (fetchFn (resolvePageUrl page)).status,
            rfl⟩
    | true =>
        constructor
        · rintro ⟨e, he⟩
          simp at he
        · intro h
          simp at h
  · unfold fetchPageContent
    rw [hok]
    rfl

/-- Witness for C7: an unknown page key resolves to the home URL; a failing
fetch yields an error, a succeeding fetch yields the body. -/
theorem fetch_page_content_witness :
    resolvePageUrl "nosuchpage" = "../pages/home-ai.html" ∧
    fetchPageContent (fun _ => ⟨true, 200, "body"⟩) "home" = Except.ok "body" :=
  ⟨fetch_page_content_spec.2.1 "nosuchpage" (by decide),
   fetch_page_content_spec.2.2.2 (fun _ => ⟨true, 200, "body"⟩) "home" rfl⟩

end NativeSpark
